import Mathlib

/-!
# go-json-validator: the validator, its check primitives, the object protocol and decoding

A shallow embedding of `validator.go` and `json.go` (and of the fixtures of
`validator_test.go`).

* The `*Validator` receiver is mutated in place by the Go code; here every method takes the
  validator state and gives the new state back.
* A Go panic is an explicit outcome (`Res.panic`) that still carries the validator state, so
  that deferred calls (`WithChild`) can be followed.
* Go's `int` is embedded as `Int`: the code only compares integers, it never does arithmetic on
  them, so no overflow can occur.
* A Go `string` is embedded as a Lean `String` and `len(s)` as its number of UTF-8 bytes.
-/

namespace jsonpointer

/-- Modelled from the spec: the package `go-json-pointer` is imported by `validator.go` but is
not under src/. A token is a field name (text) or a sequence index (non-negative integer). -/
inductive Token where
  | key (name : String)
  | index (i : Nat)
  deriving DecidableEq, Repr

/-- Modelled from the spec: a path is an ordered sequence of tokens; the root is the empty
sequence (type `jsonpointer.Pointer`, not under src/). -/
abbrev Pointer := List Token

/-- Modelled from the spec: `child(token)` gives a new path with the token appended
(`Pointer.Child`, not under src/). -/
def Pointer.Child (p : Pointer) (token : Token) : Pointer := p ++ [token]

/-- Modelled from the spec: `parent()` gives a new path with the last token removed; on the
empty path it is a fatal condition, here `none` (`Pointer.Parent`, not under src/). -/
def Pointer.Parent (p : Pointer) : Option Pointer :=
  match p with
  | [] => none
  | _ :: _ => some p.dropLast

/-- Modelled from the spec: integer tokens render as decimal, text tokens render verbatim
(the rendering of one token by `Pointer.String`, not under src/). -/
def Token.render : Token → String
  | .key name => name
  | .index i => toString i

/-- Modelled from the spec: `NewPointer(tokens...)` builds the path of the given tokens
(`jsonpointer.NewPointer`, not under src/). -/
def NewPointer (tokens : List Token) : Pointer := tokens

/-- Modelled from the spec: `toString()` renders `/tok1/tok2/...`, the root as the empty string
(`Pointer.String`, not under src/). -/
def Pointer.String (p : Pointer) : String :=
  p.foldl (fun buf token => buf ++ "/" ++ token.render) ""

end jsonpointer

namespace fmt

/-- An operand of `fmt.Sprintf`: the source passes integers, strings, and values that `fmt`
renders through their `String()` method (a `jsonpointer.Pointer`, a `reflect.Type`); such a value
is given by the name of its type and by what `String()` returns. -/
inductive Arg where
  | int (i : Int)
  | str (s : String)
  | stringer (type text : String)
  deriving DecidableEq, Repr

/-- The default (`%v`) rendering of an operand. -/
def Arg.render : Arg → String
  | .int i => toString i
  | .str s => s
  | .stringer _ text => text

/-- The Go name of the operand type, used in the diagnostics of a misused verb. -/
def Arg.typeName : Arg → String
  | .int _ => "int"
  | .str _ => "string"
  | .stringer type _ => type

/-- Rendering of one operand under one verb: `%d` applies to integers, `%s` to strings and to
values with a `String()` method, `%v` to all; a verb applied to the wrong operand gives Go's
`%!verb(type=value)` diagnostic. -/
def renderVerb (verb : Char) (a : Arg) : String :=
  match verb, a with
  | 'v', a => a.render
  | 'd', .int i => toString i
  | 's', .str s => s
  | 's', .stringer _ text => text
  | c, a => "%!" ++ String.singleton c ++ "(" ++ a.typeName ++ "=" ++ a.render ++ ")"

/-- The `%!(EXTRA ...)` suffix Go adds when operands are left over. -/
def extra (args : List Arg) : String :=
  match args with
  | [] => ""
  | _ :: _ =>
    "%!(EXTRA " ++ ", ".intercalate (args.map (fun a => a.typeName ++ "=" ++ a.render)) ++ ")"

/-- The formatting loop of `fmt.Sprintf` over the characters of the format. Only what the source
uses is embedded: plain text, `%%` and the flag-less verbs `%d`, `%s` and `%v`. -/
def sprintfLoop : List Char → List Arg → String
  | [], args => extra args
  | '%' :: [], args => "%!(NOVERB)" ++ extra args
  | '%' :: '%' :: rest, args => "%" ++ sprintfLoop rest args
  | '%' :: c :: rest, [] => "%!" ++ String.singleton c ++ "(MISSING)" ++ sprintfLoop rest []
  | '%' :: c :: rest, a :: args => renderVerb c a ++ sprintfLoop rest args
  | c :: rest, args => String.singleton c ++ sprintfLoop rest args

/-- Embedding of `fmt.Sprintf(format, args...)` (standard library). -/
def Sprintf (format : String) (args : List Arg) : String :=
  sprintfLoop format.data args

end fmt

namespace regexp

/-- A compiled regular expression (`*regexp.Regexp`, standard library): its source text, given
back by `String()`, and its matching function `MatchString`. -/
structure Regexp where
  expr : String
  MatchString : String → Bool

/-- Embedding of `(*regexp.Regexp).String`. -/
def Regexp.String (re : Regexp) : String := re.expr

end regexp

namespace url

/-- The part of a parsed `url.URL` (standard library) that the source reads. -/
structure URL where
  Scheme : String
  deriving DecidableEq, Repr

end url

namespace jsonvalidator

open jsonpointer

/-- The Go struct `ValidationError` (validator.go:13-17). -/
structure ValidationError where
  Pointer : jsonpointer.Pointer
  Code : String
  Message : String
  deriving DecidableEq, Repr

/-- The Go type `ValidationErrors` (validator.go:19); the nil slice is the empty list. -/
abbrev ValidationErrors := List ValidationError

/-- The Go struct `Validator` (validator.go:21-24). -/
structure Validator where
  Pointer : jsonpointer.Pointer
  Errors : ValidationErrors
  deriving DecidableEq, Repr

/-- The fatal conditions the embedded code can reach. -/
inductive Panic where
  | emptyPointer
  | notAPointer
  | notAPointerToStruct
  | nilDereference
  deriving DecidableEq, Repr

/-- Outcome of a method that may panic: a normal return with the returned value, or a panic;
both carry the state the validator is left in. -/
inductive Res (α : Type) where
  | ok (ret : α) (v : Validator)
  | panic (p : Panic) (v : Validator)

/-- The validator an outcome leaves behind. -/
def Res.validator {α : Type} : Res α → Validator
  | .ok _ v => v
  | .panic _ v => v

/-- The returned value of an outcome, if it is a normal return. -/
def Res.ret? {α : Type} : Res α → Option α
  | .ok a _ => some a
  | .panic _ _ => none

/-- What `reflect` sees of the dynamic type of a non-nil interface value. -/
inductive Shape where
  | nonPointer
  | pointerToOther
  | pointerToStruct (isNil : Bool)
  deriving DecidableEq, Repr

/-- A Go `interface{}` value as far as the source inspects it: the untyped nil, or a value with a
dynamic type, of which the source reads the shape (`reflect`) and whether it implements
`Validatable` (the type assertion), in which case `ValidateJSON` is its method bound to the
value. -/
inductive Value where
  | nil
  | typed (shape : Shape) (ValidateJSON : Option (Validator → Res Unit))

/-- The type assertion `value.(Validatable)`: the bound method when it succeeds. -/
def Value.asValidatable : Value → Option (Validator → Res Unit)
  | .nil => none
  | .typed _ m => m

/-- Embedding of `NewValidator` (validator.go:65-67). -/
def NewValidator : Validator := { Pointer := [], Errors := [] }

/-- Embedding of `(*Validator).Error` (validator.go:69-75). -/
def Validator.Error (v : Validator) : ValidationErrors :=
  if v.Errors.length = 0 then [] else v.Errors

/-- Embedding of `(*Validator).Push` (validator.go:77-79). -/
def Validator.Push (v : Validator) (token : Token) : Validator :=
  { v with Pointer := v.Pointer.Child token }

/-- Embedding of `(*Validator).Pop` (validator.go:81-83). -/
def Validator.Pop (v : Validator) : Res Unit :=
  match v.Pointer.Parent with
  | none => .panic .emptyPointer v
  | some p => .ok () { v with Pointer := p }

/-- Embedding of `(*Validator).WithChild` (validator.go:85-90): the deferred `Pop` runs when `fn`
returns and also when it panics. -/
def Validator.WithChild (v : Validator) (token : Token) (fn : Validator → Res Unit) : Res Unit :=
  match fn (v.Push token) with
  | .ok _ v1 => v1.Pop
  | .panic p v1 =>
    match v1.Pop with
    | .ok _ v2 => .panic p v2
    | .panic p2 v2 => .panic p2 v2

/-- Embedding of `(*Validator).AddError` (validator.go:92-102). -/
def Validator.AddError (v : Validator) (token : Token) (code format : String)
    (args : List fmt.Arg) : Validator :=
  let pointer := v.Pointer.Child token
  let err : ValidationError :=
    { Pointer := pointer, Code := code, Message := fmt.Sprintf format args }
  { v with Errors := v.Errors ++ [err] }

/-- Embedding of `(*Validator).Check` (validator.go:104-110). -/
def Validator.Check (v : Validator) (token : Token) (value : Bool) (code format : String)
    (args : List fmt.Arg) : Bool × Validator :=
  if !value then (value, v.AddError token code format args) else (value, v)

/-- Embedding of `(*Validator).CheckIntMin` (validator.go:112-115). -/
def Validator.CheckIntMin (v : Validator) (token : Token) (i min : Int) : Bool × Validator :=
  v.Check token (decide (i ≥ min)) "integerTooSmall"
    "integer must be greater or equal to %d" [.int min]

/-- Embedding of `(*Validator).CheckIntMax` (validator.go:117-120). -/
def Validator.CheckIntMax (v : Validator) (token : Token) (i max : Int) : Bool × Validator :=
  v.Check token (decide (i ≤ max)) "integerTooLarge"
    "integer must be lower or equal to %d" [.int max]

/-- Embedding of `(*Validator).CheckIntMinMax` (validator.go:122-128). -/
def Validator.CheckIntMinMax (v : Validator) (token : Token) (i min max : Int) :
    Bool × Validator :=
  let r := v.CheckIntMin token i min
  if !r.1 then (false, r.2) else r.2.CheckIntMax token i max

/-- Go's `len(s)` for a string: its number of bytes. -/
def len (s : String) : Int := (s.utf8ByteSize : Int)

/-- Embedding of `(*Validator).CheckStringLengthMin` (validator.go:130-133). -/
def Validator.CheckStringLengthMin (v : Validator) (token : Token) (s : String) (min : Int) :
    Bool × Validator :=
  v.Check token (decide (len s ≥ min)) "stringTooShort"
    "string length must be greater or equal to %d" [.int min]

/-- Embedding of `(*Validator).CheckStringLengthMax` (validator.go:135-138). -/
def Validator.CheckStringLengthMax (v : Validator) (token : Token) (s : String) (max : Int) :
    Bool × Validator :=
  v.Check token (decide (len s ≤ max)) "stringTooLong"
    "string length must be lower or equal to %d" [.int max]

/-- Embedding of `(*Validator).CheckStringLengthMinMax` (validator.go:140-146). -/
def Validator.CheckStringLengthMinMax (v : Validator) (token : Token) (s : String)
    (min max : Int) : Bool × Validator :=
  let r := v.CheckStringLengthMin token s min
  if !r.1 then (false, r.2) else r.2.CheckStringLengthMax token s max

/-- Embedding of `(*Validator).CheckStringNotEmpty` (validator.go:148-151). -/
def Validator.CheckStringNotEmpty (v : Validator) (token : Token) (s : String) :
    Bool × Validator :=
  v.Check token (decide (s ≠ "")) "missingOrEmptyString" "missing or empty string" []

/-- Embedding of `(*Validator).CheckStringMatch2` (validator.go:159-166). -/
def Validator.CheckStringMatch2 (v : Validator) (token : Token) (s : String)
    (re : regexp.Regexp) (code format : String) (args : List fmt.Arg) : Bool × Validator :=
  if !re.MatchString s then (false, v.AddError token code format args) else (true, v)

/-- Embedding of `(*Validator).CheckStringMatch` (validator.go:153-157). -/
def Validator.CheckStringMatch (v : Validator) (token : Token) (s : String)
    (re : regexp.Regexp) : Bool × Validator :=
  v.CheckStringMatch2 token s re "invalidStringFormat"
    "string must match the following regular expression: %s" [.str re.String]

/-- Embedding of `(*Validator).CheckStringURI` (validator.go:168-184). The standard library's
`url.Parse` is the parameter `Parse`; `none` stands for a non-nil `err`. -/
def Validator.CheckStringURI (Parse : String → Option url.URL) (v : Validator) (token : Token)
    (s : String) : Bool × Validator :=
  match Parse s with
  | none => (false, v.AddError token "invalidURIFormat" "string must be a valid uri" [])
  | some uri =>
    if uri.Scheme = "" then
      (false, v.AddError token "missingURIScheme" "uri must have a scheme" [])
    else (true, v)

/-- Embedding of `checkObject` (validator.go:218-235). For a pointer, `reflect.Value.IsZero`
is `IsNil`. -/
def checkObject (value : Value) : Except Panic Bool :=
  match value with
  | .nil => .ok false
  | .typed .nonPointer _ => .error .notAPointer
  | .typed .pointerToOther _ => .error .notAPointerToStruct
  | .typed (.pointerToStruct isNil) _ => .ok (!isNil)

/-- Embedding of `(*Validator).doCheckObject` (validator.go:203-216). -/
def Validator.doCheckObject (v : Validator) (token : Token) (value : Value) : Res Bool :=
  let nbErrors := v.Errors.length
  match value.asValidatable with
  | none => .ok true v
  | some validateJSON =>
    match validateJSON (v.Push token) with
    | .panic p v1 => .panic p v1
    | .ok _ v1 =>
      match v1.Pop with
      | .panic p v2 => .panic p v2
      | .ok _ v2 => .ok (v2.Errors.length == nbErrors) v2

/-- Embedding of `(*Validator).CheckOptionalObject` (validator.go:186-192). -/
def Validator.CheckOptionalObject (v : Validator) (token : Token) (value : Value) : Res Bool :=
  match checkObject value with
  | .error p => .panic p v
  | .ok present =>
    if !present then .ok true v else v.doCheckObject token value

/-- Embedding of `(*Validator).CheckObject` (validator.go:194-201). -/
def Validator.CheckObject (v : Validator) (token : Token) (value : Value) : Res Bool :=
  match checkObject value with
  | .error p => .panic p v
  | .ok present =>
    if !present then .ok false (v.AddError token "missingValue" "missing value" [])
    else v.doCheckObject token value

/-- The Go `error` returned by `Validate`: `none` is the nil interface, `some errs` an interface
value holding a `ValidationErrors`. -/
abbrev ErrorValue := Option ValidationErrors

/-- Embedding of `Validate` (validator.go:51-63); a panic of the value's method aborts it. -/
def Validate (value : Value) : Except Panic ErrorValue :=
  let v := NewValidator
  let run : Res Unit :=
    match value.asValidatable with
    | some validateJSON => validateJSON v
    | none => .ok () v
  match run with
  | .panic p _ => .error p
  | .ok _ v1 => if v1.Errors.length > 0 then .ok (some v1.Error) else .ok none

/-- Embedding of `ValidationError.Error` (validator.go:30-36). -/
def ValidationError.Error (err : ValidationError) : String :=
  if err.Pointer.length = 0 then err.Message
  else fmt.Sprintf "%v: %s"
    [.stringer "jsonpointer.Pointer" err.Pointer.String, .str err.Message]

/-- The loop of `ValidationErrors.Error` (validator.go:43-46) writing to the buffer `buf`. -/
def ValidationErrors.writeErrors (buf : String) : ValidationErrors → String
  | [] => buf
  | err :: rest => ValidationErrors.writeErrors ((buf ++ "\n  ") ++ err.Error) rest

/-- Embedding of `ValidationErrors.Error` (validator.go:38-49). -/
def ValidationErrors.Error (errs : ValidationErrors) : String :=
  ValidationErrors.writeErrors ("" ++ "invalid data:") errs

/-! ## `json.go` -/

/-- The fields of `json.UnmarshalTypeError` (standard library) that the source reads: the
description of the JSON value, the rendering of the Go type it could not be stored in, and the
dotted path of the field. -/
structure UnmarshalTypeError where
  Value : String
  Type_ : String
  Field : String
  deriving DecidableEq, Repr

/-- A non-nil Go `error` as far as the source tells errors apart: a `*json.UnmarshalTypeError`,
a `ValidationErrors`, or any other error, given by a description. -/
inductive GoError where
  | unmarshalTypeError (err : UnmarshalTypeError)
  | validationErrors (errs : ValidationErrors)
  | other (description : String)
  deriving DecidableEq, Repr

/-- The splitting loop of `strings.Split` for a one-character separator: `acc` holds, reversed,
the characters of the part being read. -/
def splitLoop (sep : Char) : List Char → List Char → List String
  | [], acc => [String.mk acc.reverse]
  | c :: rest, acc =>
    if c = sep then String.mk acc.reverse :: splitLoop sep rest []
    else splitLoop sep rest (c :: acc)

/-- Embedding of `strings.Split(s, sep)` (standard library) for a one-character separator. -/
def Split (s : String) (sep : Char) : List String := splitLoop sep s.data []

/-- Embedding of `ConvertUnmarshallingError` (json.go:39-71); `none` is the nil error. The
debugging line the function prints on standard output is not part of what it returns. -/
def ConvertUnmarshallingError (err : Option GoError) : Option GoError :=
  match err with
  | some (.unmarshalTypeError err2) =>
    let pointer : jsonpointer.Pointer :=
      if err2.Field ≠ "" then
        let parts := Split err2.Field '.'
        let parts2 := parts.map Token.key
        NewPointer parts2
      else []
    let message := fmt.Sprintf "cannot decode %v into value of type %v"
      [.str err2.Value, .stringer "reflect.Type" err2.Type_]
    some (.validationErrors
      [{ Pointer := pointer, Code := "invalidValueType", Message := message }])
  | _ => err

/-- A `*json.Decoder` (standard library) as far as the source uses it: `Decode(dest)` gives the
error it reports (`none` for nil) and the destination as decoding left it. -/
structure Decoder where
  Decode : Value → Option GoError × Value

/-- Embedding of `UnmarshalDecoder` (json.go:25-32); a panic of the validation aborts it. -/
def UnmarshalDecoder (d : Decoder) (dest : Value) : Except Panic (Option GoError) :=
  match d.Decode dest with
  | (some err, _) => .ok (ConvertUnmarshallingError (some err))
  | (none, dest1) =>
    match Validate dest1 with
    | .error p => .error p
    | .ok none => .ok none
    | .ok (some errs) => .ok (some (.validationErrors errs))

/-- Embedding of `Unmarshal` (json.go:20-23); `bytes.NewReader` and `json.NewDecoder` (standard
library) are the parameters `NewReader` and `NewDecoder`. -/
def Unmarshal {Reader : Type} (NewReader : List UInt8 → Reader) (NewDecoder : Reader → Decoder)
    (data : List UInt8) (dest : Value) : Except Panic (Option GoError) :=
  let d := NewDecoder (NewReader data)
  UnmarshalDecoder d dest

/-- Embedding of `UnmarshalReader` (json.go:34-37); `json.NewDecoder` (standard library) is the
parameter `NewDecoder`. -/
def UnmarshalReader {Reader : Type} (NewDecoder : Reader → Decoder) (r : Reader)
    (dest : Value) : Except Panic (Option GoError) :=
  let d := NewDecoder r
  UnmarshalDecoder d dest

/-! ## The fixtures of `validator_test.go` -/

/-- The Go struct `TestBar` (validator_test.go:15-17). -/
structure TestBar where
  Integers : List Int
  deriving DecidableEq, Repr

/-- The Go struct `TestFoo` (validator_test.go:9-13); a `*TestBar` is an `Option`, nil being
`none`. -/
structure TestFoo where
  String : String
  Bar : Option TestBar
  Bars : List (Option TestBar)
  deriving DecidableEq, Repr

/-- The loop `for i, integer := range bar.Integers` of validator_test.go:33-35, from index
`i` on. -/
def TestBar.rangeIntegers (i : Nat) (integers : List Int) (v : Validator) : Validator :=
  match integers with
  | [] => v
  | integer :: rest => TestBar.rangeIntegers (i + 1) rest (v.CheckIntMax (.index i) integer 10).2

/-- Embedding of `(*TestBar).ValidateJSON` (validator_test.go:31-37); reading `bar.Integers`
through a nil receiver is a nil dereference. -/
def TestBar.ValidateJSON (bar : Option TestBar) (v : Validator) : Res Unit :=
  v.WithChild (.key "Integers") (fun v1 =>
    match bar with
    | none => .panic .nilDereference v1
    | some b => .ok () (TestBar.rangeIntegers 0 b.Integers v1))

/-- A `*TestBar` passed as an `interface{}`: a pointer to a struct whose type implements
`Validatable`. -/
def TestBar.ref (bar : Option TestBar) : Value :=
  .typed (.pointerToStruct bar.isNone) (some (TestBar.ValidateJSON bar))

/-- The loop `for i, bar := range foo.Bars` of validator_test.go:25-27, from index `i` on. -/
def TestFoo.rangeBars (i : Nat) (bars : List (Option TestBar)) (v : Validator) : Res Unit :=
  match bars with
  | [] => .ok () v
  | bar :: rest =>
    match v.CheckObject (.index i) (TestBar.ref bar) with
    | .panic p v1 => .panic p v1
    | .ok _ v1 => TestFoo.rangeBars (i + 1) rest v1

/-- Embedding of `(*TestFoo).ValidateJSON` (validator_test.go:19-29), for a non-nil receiver. -/
def TestFoo.ValidateJSON (foo : TestFoo) (v : Validator) : Res Unit :=
  let v1 := (v.CheckStringLengthMin (.key "String") foo.String 3).2
  match v1.CheckOptionalObject (.key "Bar") (TestBar.ref foo.Bar) with
  | .panic p v2 => .panic p v2
  | .ok _ v2 => v2.WithChild (.key "Bars") (TestFoo.rangeBars 0 foo.Bars)

/-- The value `&d` for a `TestFoo` document `d`: a non-nil pointer to a struct whose type
implements `Validatable`. -/
def TestFoo.ref (d : TestFoo) : Value :=
  .typed (.pointerToStruct false) (some (TestFoo.ValidateJSON d))

/-! ## What the claims say about the fixtures, in the claims' own words -/

/-- A violation as the claims describe it: the path where it is, and its code. -/
abbrev Violation := jsonpointer.Pointer × String

/-- A reported error as the claims describe it: where it is and its code. -/
def ValidationError.locCode (e : ValidationError) : Violation := (e.Pointer, e.Code)

/-- The ordered error list a returned `error` stands for: none for the nil error. -/
def ErrorValue.list (e : ErrorValue) : ValidationErrors :=
  match e with
  | none => []
  | some errs => errs

/-- From the claim's words: one `integerTooLarge` at `<at>/Integers/j` for each `j`, in
increasing order, whose integer exceeds 10. -/
def integerViolations (at_ : Pointer) (integers : List Int) : List Violation :=
  integers.enum.filterMap (fun jx =>
    if jx.2 > 10 then some (at_ ++ [.key "Integers", .index jx.1], "integerTooLarge") else none)

/-- From the claim's words: the depth-first, declaration-order enumeration of the violations of
a `TestFoo` document. -/
def TestFoo.violations (d : TestFoo) : List Violation :=
  (if len d.String < 3 then [([.key "String"], "stringTooShort")] else [])
  ++ (match d.Bar with
      | none => []
      | some bar => integerViolations [.key "Bar"] bar.Integers)
  ++ d.Bars.enum.flatMap (fun ib =>
      match ib.2 with
      | none => [([.key "Bars", .index ib.1], "missingValue")]
      | some bar => integerViolations [.key "Bars", .index ib.1] bar.Integers)

/-- From the claim's words: a `TestFoo` document is valid when its string has at least 3 bytes,
the integers of `Bar` (when non-nil) are at most 10, no element of `Bars` is nil and the integers
of every element of `Bars` are at most 10. -/
def TestFoo.valid (d : TestFoo) : Prop :=
  len d.String ≥ 3
  ∧ (∀ bar, d.Bar = some bar → ∀ x ∈ bar.Integers, x ≤ 10)
  ∧ (∀ bar ∈ d.Bars, bar ≠ none)
  ∧ (∀ bar, some bar ∈ d.Bars → ∀ x ∈ bar.Integers, x ≤ 10)

/-! ## The errors the fixtures record, computed alongside the loops -/

/-- The error `CheckIntMax` records at `p`. -/
def tooLargeAt (p : Pointer) : ValidationError :=
  { Pointer := p, Code := "integerTooLarge",
    Message := fmt.Sprintf "integer must be lower or equal to %d" [.int 10] }

/-- The error `CheckObject` records at `p` for an absent value. -/
def missingAt (p : Pointer) : ValidationError :=
  { Pointer := p, Code := "missingValue", Message := fmt.Sprintf "missing value" [] }

/-- The error `CheckStringLengthMin` records at `p` for the bound 3. -/
def tooShortAt (p : Pointer) : ValidationError :=
  { Pointer := p, Code := "stringTooShort",
    Message := fmt.Sprintf "string length must be greater or equal to %d" [.int 3] }

/-- The errors of the integers loop with cursor `p`, from index `i` on. -/
def integersErrors (p : Pointer) : Nat → List Int → ValidationErrors
  | _, [] => []
  | i, x :: rest =>
    (if x ≤ 10 then [] else [tooLargeAt (p ++ [.index i])]) ++ integersErrors p (i + 1) rest

/-- The errors of the bars loop with cursor `p`, from index `i` on. -/
def barsErrors (p : Pointer) : Nat → List (Option TestBar) → ValidationErrors
  | _, [] => []
  | i, none :: rest => missingAt (p ++ [.index i]) :: barsErrors p (i + 1) rest
  | i, some bar :: rest =>
    integersErrors (p ++ [.index i] ++ [.key "Integers"]) 0 bar.Integers
      ++ barsErrors p (i + 1) rest

/-- The errors of a whole `TestFoo` document validated with cursor `p`. -/
def fooErrors (p : Pointer) (d : TestFoo) : ValidationErrors :=
  (if len d.String ≥ 3 then [] else [tooShortAt (p ++ [.key "String"])])
  ++ (match d.Bar with
      | none => []
      | some bar => integersErrors (p ++ [.key "Bar"] ++ [.key "Integers"]) 0 bar.Integers)
  ++ barsErrors (p ++ [.key "Bars"]) 0 d.Bars

/-- From the claim's words: a primitive that started in state `v` and ended with result `r` left
the cursor alone and either passed (returned true, error list unchanged) or failed (returned
false, exactly one error appended after the earlier ones). -/
def recordsAtMostOne (v : Validator) (r : Bool × Validator) : Prop :=
  r.2.Pointer = v.Pointer
  ∧ ((r.1 = true ∧ r.2.Errors = v.Errors) ∨ (r.1 = false ∧ ∃ e, r.2.Errors = v.Errors ++ [e]))

/-- From the claim's words: the line of one error is `<path>: <message>` when its path is not
empty, and the bare message when its path is the root. -/
def errorLine (e : ValidationError) : String :=
  if e.Pointer = [] then e.Message else e.Pointer.String ++ ": " ++ e.Message

/-- Concatenation of a list of strings, in list order. -/
def concatAll : List String → String
  | [] => ""
  | s :: rest => s ++ concatAll rest

/-- From the claim's words: "invalid data:" followed, for each error in list order, by a newline,
two spaces and the line of that error. -/
def renderingOf (errs : ValidationErrors) : String :=
  "invalid data:" ++ concatAll (errs.map (fun e => "\n  " ++ errorLine e))

/-- The `error` that `Unmarshal` gives back for what `Validate` returned. -/
def asError (r : Except Panic ErrorValue) : Except Panic (Option GoError) :=
  match r with
  | .error p => .error p
  | .ok none => .ok none
  | .ok (some errs) => .ok (some (.validationErrors errs))

/-- A `ValidateJSON` method of a buggy nested object: it passes a value that is not a pointer to
`CheckObject`. -/
def passesNonPointer (v : Validator) : Res Unit :=
  match v.CheckObject (.key "Child") (.typed .nonPointer none) with
  | .ok _ v1 => .ok () v1
  | .panic p v1 => .panic p v1

/-! ## Basic facts -/

theorem Parent_Child (p : Pointer) (t : Token) : (p.Child t).Parent = some p := by
  unfold Pointer.Child Pointer.Parent
  cases h : p ++ [t] with
  | nil => simp at h
  | cons a l => simp [← h]

theorem Pop_Push (v : Validator) (t : Token) : (v.Push t).Pop = .ok () v := by
  simp [Validator.Push, Validator.Pop, Parent_Child]

theorem Pop_of_Pointer (v : Validator) (p : Pointer) (t : Token) (h : v.Pointer = p ++ [t]) :
    v.Pop = .ok () { v with Pointer := p } := by
  have h2 : v.Pointer.Parent = some p := by
    rw [h]; exact Parent_Child p t
  simp [Validator.Pop, h2]

theorem rangeIntegers_eq (xs : List Int) (i : Nat) (v : Validator) :
    TestBar.rangeIntegers i xs v
      = { v with Errors := v.Errors ++ integersErrors v.Pointer i xs } := by
  induction xs generalizing i v with
  | nil => simp [TestBar.rangeIntegers, integersErrors]
  | cons x rest ih =>
    rw [TestBar.rangeIntegers, ih]
    by_cases hx : x ≤ 10
    · simp [Validator.CheckIntMax, Validator.Check, integersErrors, hx]
    · simp [Validator.CheckIntMax, Validator.Check, integersErrors, hx, Validator.AddError,
        tooLargeAt, Pointer.Child]

theorem TestBar_ValidateJSON_eq (bar : TestBar) (v : Validator) :
    TestBar.ValidateJSON (some bar) v
      = .ok () { v with Errors := v.Errors
          ++ integersErrors (v.Pointer ++ [.key "Integers"]) 0 bar.Integers } := by
  simp only [TestBar.ValidateJSON, Validator.WithChild, rangeIntegers_eq]
  rw [Pop_of_Pointer _ v.Pointer (.key "Integers") (by simp [Validator.Push, Pointer.Child])]
  simp [Validator.Push, Pointer.Child]

theorem CheckObject_TestBar_some (bar : TestBar) (t : Token) (v : Validator) :
    ∃ b, v.CheckObject t (TestBar.ref (some bar))
      = .ok b { v with Errors := v.Errors
          ++ integersErrors (v.Pointer ++ [t] ++ [.key "Integers"]) 0 bar.Integers } := by
  simp only [Validator.CheckObject, checkObject, TestBar.ref, Option.isNone, Bool.not_false,
    Bool.not_true, Bool.false_eq_true, if_false, Validator.doCheckObject, Value.asValidatable,
    TestBar_ValidateJSON_eq]
  rw [Pop_of_Pointer _ v.Pointer t (by simp [Validator.Push, Pointer.Child])]
  simp [Validator.Push, Pointer.Child]

theorem rangeBars_eq (bars : List (Option TestBar)) (i : Nat) (v : Validator) :
    TestFoo.rangeBars i bars v
      = .ok () { v with Errors := v.Errors ++ barsErrors v.Pointer i bars } := by
  induction bars generalizing i v with
  | nil => simp [TestFoo.rangeBars, barsErrors]
  | cons bar rest ih =>
    cases bar with
    | none =>
      simp [TestFoo.rangeBars, Validator.CheckObject, checkObject, TestBar.ref, ih, barsErrors,
        Validator.AddError, missingAt, Pointer.Child]
    | some b =>
      obtain ⟨r, hr⟩ := CheckObject_TestBar_some b (.index i) v
      simp [TestFoo.rangeBars, hr, ih, barsErrors]

theorem CheckOptionalObject_TestBar_some (bar : TestBar) (t : Token) (v : Validator) :
    ∃ b, v.CheckOptionalObject t (TestBar.ref (some bar))
      = .ok b { v with Errors := v.Errors
          ++ integersErrors (v.Pointer ++ [t] ++ [.key "Integers"]) 0 bar.Integers } := by
  simp only [Validator.CheckOptionalObject, checkObject, TestBar.ref, Option.isNone,
    Bool.not_false, Bool.not_true, Bool.false_eq_true, if_false, Validator.doCheckObject,
    Value.asValidatable, TestBar_ValidateJSON_eq]
  rw [Pop_of_Pointer _ v.Pointer t (by simp [Validator.Push, Pointer.Child])]
  simp [Validator.Push, Pointer.Child]

theorem CheckStringLengthMin_three (s : String) (t : Token) (v : Validator) :
    (v.CheckStringLengthMin t s 3).2
      = { v with Errors := v.Errors
            ++ (if len s ≥ 3 then [] else [tooShortAt (v.Pointer ++ [t])]) } := by
  by_cases h : len s ≥ 3
  · simp [Validator.CheckStringLengthMin, Validator.Check, h]
  · simp [Validator.CheckStringLengthMin, Validator.Check, h, Validator.AddError, tooShortAt,
      Pointer.Child]

theorem TestFoo_ValidateJSON_eq (d : TestFoo) (v : Validator) :
    TestFoo.ValidateJSON d v = .ok () { v with Errors := v.Errors ++ fooErrors v.Pointer d } := by
  obtain ⟨s, bar, bars⟩ := d
  simp only [TestFoo.ValidateJSON, CheckStringLengthMin_three]
  cases bar with
  | none =>
    simp only [Validator.CheckOptionalObject, checkObject, TestBar.ref, Option.isNone,
      Bool.not_true, Bool.not_false, if_true, Validator.WithChild, rangeBars_eq]
    rw [Pop_of_Pointer _ v.Pointer (.key "Bars") (by simp [Validator.Push, Pointer.Child])]
    simp [Validator.Push, Pointer.Child, fooErrors]
  | some b =>
    obtain ⟨r, hr⟩ := CheckOptionalObject_TestBar_some b (.key "Bar")
      { v with Errors := v.Errors
            ++ (if len s ≥ 3 then [] else [tooShortAt (v.Pointer ++ [.key "String"])]) }
    simp only [hr, Validator.WithChild, rangeBars_eq]
    rw [Pop_of_Pointer _ v.Pointer (.key "Bars") (by simp [Validator.Push, Pointer.Child])]
    simp [Validator.Push, Pointer.Child, fooErrors]

theorem integersErrors_eq_nil (p : Pointer) (xs : List Int) (i : Nat) :
    integersErrors p i xs = [] ↔ ∀ x ∈ xs, x ≤ 10 := by
  induction xs generalizing i with
  | nil => simp [integersErrors]
  | cons x rest ih =>
    by_cases hx : x ≤ 10 <;> simp [integersErrors, hx, ih]

theorem barsErrors_eq_nil (p : Pointer) (bars : List (Option TestBar)) (i : Nat) :
    barsErrors p i bars = []
      ↔ (∀ bar ∈ bars, bar ≠ none) ∧ (∀ bar, some bar ∈ bars → ∀ x ∈ bar.Integers, x ≤ 10) := by
  induction bars generalizing i with
  | nil => simp [barsErrors]
  | cons bar rest ih =>
    cases bar with
    | none => simp [barsErrors]
    | some b =>
      simp only [barsErrors, List.append_eq_nil, integersErrors_eq_nil, ih, List.mem_cons,
        forall_eq_or_imp, ne_eq, Option.some.injEq]
      constructor
      · rintro ⟨h1, h2, h3⟩
        exact ⟨⟨by simp, h2⟩, h1, h3⟩
      · rintro ⟨⟨_, h2⟩, h1, h3⟩
        exact ⟨h1, h2, h3⟩

theorem fooErrors_eq_nil (p : Pointer) (d : TestFoo) : fooErrors p d = [] ↔ TestFoo.valid d := by
  obtain ⟨s, bar, bars⟩ := d
  cases bar with
  | none =>
    by_cases h : len s ≥ 3 <;> simp [fooErrors, TestFoo.valid, h, barsErrors_eq_nil]
  | some b =>
    by_cases h : len s ≥ 3 <;>
      simp [fooErrors, TestFoo.valid, h, barsErrors_eq_nil, integersErrors_eq_nil]

theorem integersErrors_locCode (at_ : Pointer) (xs : List Int) (i : Nat) :
    (integersErrors (at_ ++ [.key "Integers"]) i xs).map ValidationError.locCode
      = (xs.enumFrom i).filterMap (fun jx =>
          if jx.2 > 10 then some (at_ ++ [.key "Integers", .index jx.1], "integerTooLarge")
          else none) := by
  induction xs generalizing i with
  | nil => simp [integersErrors]
  | cons x rest ih =>
    by_cases hx : x ≤ 10
    · have hx2 : ¬ x > 10 := by omega
      simp [integersErrors, hx, hx2, ih, List.enumFrom_cons, List.filterMap_cons]
    · have hx2 : x > 10 := by omega
      simp [integersErrors, hx, hx2, ih, List.enumFrom_cons, List.filterMap_cons,
        ValidationError.locCode, tooLargeAt]

theorem barsErrors_locCode (bars : List (Option TestBar)) (i : Nat) :
    (barsErrors [.key "Bars"] i bars).map ValidationError.locCode
      = (bars.enumFrom i).flatMap (fun ib =>
          match ib.2 with
          | none => [([.key "Bars", .index ib.1], "missingValue")]
          | some bar => integerViolations [.key "Bars", .index ib.1] bar.Integers) := by
  induction bars generalizing i with
  | nil => simp [barsErrors]
  | cons bar rest ih =>
    cases bar with
    | none =>
      simp [barsErrors, ih, List.enumFrom_cons, List.flatMap_cons, ValidationError.locCode,
        missingAt]
    | some b =>
      simp only [barsErrors, List.map_append, ih, List.enumFrom_cons, List.flatMap_cons]
      have h := integersErrors_locCode ([.key "Bars"] ++ [.index i]) b.Integers 0
      rw [h]
      simp [integerViolations, List.enum]

theorem fooErrors_locCode (d : TestFoo) :
    (fooErrors [] d).map ValidationError.locCode = TestFoo.violations d := by
  obtain ⟨s, bar, bars⟩ := d
  have hb := barsErrors_locCode bars 0
  cases bar with
  | none =>
    by_cases h : len s ≥ 3
    · have h2 : ¬ len s < 3 := by omega
      simp only [fooErrors, TestFoo.violations, h, h2, if_true, if_false, List.map_append,
        List.nil_append, List.append_nil, List.map_nil, List.enum]
      exact hb
    · have h2 : len s < 3 := by omega
      simp only [fooErrors, TestFoo.violations, h, h2, if_true, if_false, List.map_append,
        List.nil_append, List.append_nil, List.map_nil, List.enum, List.map_cons]
      rw [← hb]
      simp [ValidationError.locCode, tooShortAt]
  | some b =>
    have hi := integersErrors_locCode [.key "Bar"] b.Integers 0
    by_cases h : len s ≥ 3
    · have h2 : ¬ len s < 3 := by omega
      simp only [fooErrors, TestFoo.violations, h, h2, if_true, if_false, List.map_append,
        List.nil_append, List.append_nil, List.map_nil, List.enum]
      rw [← hb]
      simp only [integerViolations, List.enum]
      rw [← hi]
    · have h2 : len s < 3 := by omega
      simp only [fooErrors, TestFoo.violations, h, h2, if_true, if_false, List.map_append,
        List.nil_append, List.append_nil, List.map_nil, List.enum, List.map_cons]
      rw [← hb]
      simp only [integerViolations, List.enum]
      rw [← hi]
      simp [ValidationError.locCode, tooShortAt]

theorem Validate_TestFoo_eq (d : TestFoo) :
    Validate (TestFoo.ref d)
      = .ok (if (fooErrors [] d).length > 0 then some (fooErrors [] d) else none) := by
  simp only [Validate, TestFoo.ref, Value.asValidatable, TestFoo_ValidateJSON_eq, NewValidator,
    List.nil_append, Validator.Error]
  by_cases h : (fooErrors [] d).length > 0
  · have h2 : ¬ (fooErrors [] d).length = 0 := by omega
    simp [h, h2]
  · simp [h]

theorem integersErrors_no_missingValue (p : Pointer) (xs : List Int) (i : Nat) :
    (integersErrors p i xs).filter (fun e => e.Code == "missingValue") = [] := by
  induction xs generalizing i with
  | nil => simp [integersErrors]
  | cons x rest ih =>
    by_cases hx : x ≤ 10
    · simp [integersErrors, hx, ih]
    · have hc : ("integerTooLarge" == "missingValue") = false := by decide
      simp [integersErrors, hx, ih, tooLargeAt, List.filter_cons, hc]

theorem barsErrors_missingValue (p : Pointer) (bars : List (Option TestBar)) (i : Nat) :
    ((barsErrors p i bars).filter (fun e => e.Code == "missingValue")).map (fun e => e.Pointer)
      = (bars.enumFrom i).filterMap (fun ib =>
          if ib.2.isNone then some (p ++ [.index ib.1]) else none) := by
  induction bars generalizing i with
  | nil => simp [barsErrors]
  | cons bar rest ih =>
    cases bar with
    | none =>
      simp [barsErrors, List.filter_cons, missingAt, ih, List.enumFrom_cons, List.filterMap_cons]
    | some b =>
      simp [barsErrors, List.filter_append, integersErrors_no_missingValue, ih,
        List.enumFrom_cons, List.filterMap_cons]

theorem fooErrors_missingValue (d : TestFoo) :
    ((fooErrors [] d).filter (fun e => e.Code == "missingValue")).map (fun e => e.Pointer)
      = d.Bars.enum.filterMap (fun ib =>
          if ib.2.isNone then some [.key "Bars", .index ib.1] else none) := by
  obtain ⟨s, bar, bars⟩ := d
  have hc : ("stringTooShort" == "missingValue") = false := by decide
  have hb := barsErrors_missingValue [.key "Bars"] bars 0
  cases bar with
  | none =>
    by_cases h : len s ≥ 3
    · simpa [fooErrors, h, List.filter_append, List.enum] using hb
    · simpa [fooErrors, h, List.filter_append, List.enum, List.filter_cons, tooShortAt, hc]
        using hb
  | some b =>
    by_cases h : len s ≥ 3
    · simpa [fooErrors, h, List.filter_append, List.enum, integersErrors_no_missingValue]
        using hb
    · simpa [fooErrors, h, List.filter_append, List.enum, List.filter_cons, tooShortAt, hc,
        integersErrors_no_missingValue] using hb

theorem Check_recordsAtMostOne (v : Validator) (token : Token) (value : Bool)
    (code format : String) (args : List fmt.Arg) :
    recordsAtMostOne v (v.Check token value code format args) := by
  cases value <;> simp [recordsAtMostOne, Validator.Check, Validator.AddError]

theorem Check_true (v : Validator) (token : Token) (value : Bool) (code format : String)
    (args : List fmt.Arg) (h : (v.Check token value code format args).1 = true) :
    (v.Check token value code format args).2 = v := by
  cases value <;> simp_all [Validator.Check]

theorem Check_false (v : Validator) (token : Token) (value : Bool) (code format : String)
    (args : List fmt.Arg) (h : ¬ (v.Check token value code format args).1 = true) :
    recordsAtMostOne v (false, (v.Check token value code format args).2) := by
  cases value <;> simp_all [recordsAtMostOne, Validator.Check, Validator.AddError]

theorem CheckStringMatch2_recordsAtMostOne (v : Validator) (token : Token) (s : String)
    (re : regexp.Regexp) (code format : String) (args : List fmt.Arg) :
    recordsAtMostOne v (v.CheckStringMatch2 token s re code format args) := by
  cases h : re.MatchString s <;>
    simp [recordsAtMostOne, Validator.CheckStringMatch2, Validator.AddError, h]

/-! ## The claims -/

/-- C1: for every `TestFoo` document `d`, `Validate(&d)` returns normally, and it returns no
error if and only if `d` is valid (string of at least 3 bytes, integers of a non-nil `Bar` at
most 10, no nil element in `Bars`, integers of every element of `Bars` at most 10). -/
theorem Validate_TestFoo_noError_iff_valid (d : TestFoo) :
    (∃ r, Validate (TestFoo.ref d) = .ok r)
    ∧ (Validate (TestFoo.ref d) = .ok none ↔ TestFoo.valid d) := by
  rw [Validate_TestFoo_eq]
  refine ⟨⟨_, rfl⟩, ?_⟩
  rw [← fooErrors_eq_nil [] d]
  cases h : fooErrors [] d with
  | nil => simp
  | cons e es => simp

/-- C2: for every `TestFoo` document `d`, `Validate(&d)` returns normally and the ordered list
of (path, code) of the errors it returns is exactly the depth-first, declaration-order
enumeration of the violations of `d`. -/
theorem Validate_TestFoo_errors_eq_violations (d : TestFoo) :
    ∃ r, Validate (TestFoo.ref d) = .ok r
      ∧ (ErrorValue.list r).map ValidationError.locCode = TestFoo.violations d := by
  rw [Validate_TestFoo_eq]
  refine ⟨_, rfl, ?_⟩
  rw [← fooErrors_locCode d]
  cases h : fooErrors [] d with
  | nil => simp [ErrorValue.list]
  | cons e es => simp [ErrorValue.list]

/-- C3: `Check` returns the predicate value and never moves the cursor; when the predicate is
true the validator is unchanged, when it is false exactly one error with the given code and the
formatted message is appended at the cursor's child `token`; so an error is recorded iff the
predicate is false. -/
theorem Check_records_iff_false (v : Validator) (token : Token) (value : Bool)
    (code format : String) (args : List fmt.Arg) :
    (v.Check token value code format args).1 = value
    ∧ (v.Check token value code format args).2.Pointer = v.Pointer
    ∧ (v.Check token value code format args).2.Errors
        = (if value then v.Errors
           else v.Errors ++ [{ Pointer := v.Pointer.Child token, Code := code,
                               Message := fmt.Sprintf format args }])
    ∧ (v.Check token true code format args).2 = v
    ∧ ((v.Check token value code format args).2.Errors.length = v.Errors.length + 1
        ↔ value = false)
    ∧ ((v.Check token value code format args).2.Errors = v.Errors ↔ value = true) := by
  cases value <;> simp [Validator.Check, Validator.AddError]

/-- C4: `AddError` leaves the cursor as it is and makes the error list the earlier list followed
by exactly one new error, whose path is the cursor with `token` appended, whose code is the
given code and whose message is the formatted message. -/
theorem AddError_appends_one (v : Validator) (token : Token) (code format : String)
    (args : List fmt.Arg) :
    (v.AddError token code format args).Pointer = v.Pointer
    ∧ (v.AddError token code format args).Errors
        = v.Errors ++ [{ Pointer := v.Pointer ++ [token], Code := code,
                         Message := fmt.Sprintf format args }]
    ∧ (v.AddError token code format args).Errors.length = v.Errors.length + 1
    ∧ (v.AddError token code format args).Errors.take v.Errors.length = v.Errors := by
  simp [Validator.AddError, Pointer.Child]

/-- C5: `CheckObject` on an absent value (the untyped nil, or a nil pointer to a struct, whatever
its `ValidateJSON` method is or does) returns false, leaves the cursor as it is and appends
exactly one `missingValue` error at the cursor's child `token`; the method is not run, since the
outcome does not depend on it. For a `TestFoo` document, the `missingValue` errors returned by
`Validate` are exactly those at `/Bars/i` for the indices `i` of the nil elements of `Bars`, in
increasing order. -/
theorem CheckObject_absent (v : Validator) (token : Token) :
    v.CheckObject token .nil
        = .ok false { Pointer := v.Pointer,
                      Errors := v.Errors ++ [{ Pointer := v.Pointer ++ [token],
                                               Code := "missingValue",
                                               Message := "missing value" }] }
    ∧ (∀ method : Option (Validator → Res Unit),
        v.CheckObject token (.typed (.pointerToStruct true) method)
          = .ok false { Pointer := v.Pointer,
                        Errors := v.Errors ++ [{ Pointer := v.Pointer ++ [token],
                                                 Code := "missingValue",
                                                 Message := "missing value" }] })
    ∧ (∀ d : TestFoo, ∃ r, Validate (TestFoo.ref d) = .ok r
        ∧ ((ErrorValue.list r).filter (fun e => e.Code == "missingValue")).map
              (fun e => e.Pointer)
            = d.Bars.enum.filterMap (fun ib =>
                if ib.2.isNone then some [.key "Bars", .index ib.1] else none)) := by
  have hm : fmt.Sprintf "missing value" [] = "missing value" := by decide
  refine ⟨?_, ?_, ?_⟩
  · simp [Validator.CheckObject, checkObject, Validator.AddError, Pointer.Child, hm]
  · intro method
    simp [Validator.CheckObject, checkObject, Validator.AddError, Pointer.Child, hm]
  · intro d
    rw [Validate_TestFoo_eq]
    refine ⟨_, rfl, ?_⟩
    rw [← fooErrors_missingValue d]
    cases h : fooErrors [] d with
    | nil => simp [ErrorValue.list]
    | cons e es => simp [ErrorValue.list]

/-- C6: `CheckOptionalObject` on an absent value (the untyped nil, or a nil pointer to a struct,
whatever its `ValidateJSON` method is or does) returns true and leaves the cursor and the error
list unchanged; the method is not run, since the outcome does not depend on it. -/
theorem CheckOptionalObject_absent (v : Validator) (token : Token) :
    v.CheckOptionalObject token .nil = .ok true v
    ∧ (∀ method : Option (Validator → Res Unit),
        v.CheckOptionalObject token (.typed (.pointerToStruct true) method) = .ok true v) := by
  refine ⟨?_, ?_⟩
  · simp [Validator.CheckOptionalObject, checkObject]
  · intro method
    simp [Validator.CheckOptionalObject, checkObject]

/-- C7, as the code has it: for a present value (non-nil pointer to a struct) implementing
`Validatable` whose `ValidateJSON`, run with the cursor pushed to `token`, returns normally with
the cursor where it was and the error list extended by `extra`, `CheckObject` returns normally
with the cursor popped back and the error list extended by `extra`, and the returned boolean tells
that NO new error was added: it is true exactly when the error list has the same length after
the call as before, and false exactly when it is longer. -/
theorem CheckObject_present_true_iff_no_new_error (v : Validator) (token : Token)
    (validateJSON : Validator → Res Unit) (extra : ValidationErrors)
    (h : validateJSON (v.Push token)
          = .ok () { Pointer := (v.Push token).Pointer, Errors := v.Errors ++ extra }) :
    ∃ b, v.CheckObject token (.typed (.pointerToStruct false) (some validateJSON))
          = .ok b { Pointer := v.Pointer, Errors := v.Errors ++ extra }
      ∧ (b = true ↔ (v.Errors ++ extra).length = v.Errors.length)
      ∧ (b = false ↔ (v.Errors ++ extra).length > v.Errors.length) := by
  have hp := Pop_of_Pointer { Pointer := (v.Push token).Pointer, Errors := v.Errors ++ extra }
    v.Pointer token (by simp [Validator.Push, Pointer.Child])
  simp only [Validator.CheckObject, checkObject, Bool.not_false, Bool.not_true,
    Bool.false_eq_true, if_false, Validator.doCheckObject, Value.asValidatable, h, hp]
  refine ⟨_, rfl, ?_, ?_⟩
  · simp
  · cases extra <;> simp

/-- Witness of C7 as amended: the test fixture `TestBar` with one integer above 10, checked at
index 0 from the root. -/
theorem CheckObject_present_true_iff_no_new_error_witness :
    ∃ b, NewValidator.CheckObject (.index 0)
          (.typed (.pointerToStruct false) (some (TestBar.ValidateJSON (some { Integers := [15] }))))
          = .ok b { Pointer := NewValidator.Pointer,
                    Errors := NewValidator.Errors
                      ++ [tooLargeAt [.index 0, .key "Integers", .index 0]] }
      ∧ (b = true ↔ (NewValidator.Errors
            ++ [tooLargeAt [.index 0, .key "Integers", .index 0]]).length
              = NewValidator.Errors.length)
      ∧ (b = false ↔ (NewValidator.Errors
            ++ [tooLargeAt [.index 0, .key "Integers", .index 0]]).length
              > NewValidator.Errors.length) :=
  CheckObject_present_true_iff_no_new_error NewValidator (.index 0)
    (TestBar.ValidateJSON (some { Integers := [15] }))
    [tooLargeAt [.index 0, .key "Integers", .index 0]] rfl

/-- C7 fails as stated: the fixture `TestBar` with the single integer 1 is present, implements
`Validatable` and its `ValidateJSON` only appends errors; `CheckObject` on it returns true
although the error list is not longer after the call than before. With the single integer 15
it returns false although the error list is longer. -/
theorem CheckObject_present_true_when_longer_counterexample :
    (∀ w : Validator, ∃ extra, TestBar.ValidateJSON (some { Integers := [1] }) w
        = .ok () { Pointer := w.Pointer, Errors := w.Errors ++ extra })
    ∧ (NewValidator.CheckObject (.key "Bar") (TestBar.ref (some { Integers := [1] }))).ret?
        = some true
    ∧ ¬ ((NewValidator.CheckObject (.key "Bar")
            (TestBar.ref (some { Integers := [1] }))).validator.Errors.length
          > NewValidator.Errors.length)
    ∧ (NewValidator.CheckObject (.key "Bar") (TestBar.ref (some { Integers := [15] }))).ret?
        = some false
    ∧ (NewValidator.CheckObject (.key "Bar")
            (TestBar.ref (some { Integers := [15] }))).validator.Errors.length
          > NewValidator.Errors.length := by
  refine ⟨fun w => ⟨_, TestBar_ValidateJSON_eq _ w⟩, by rfl, by decide, by rfl, by decide⟩

/-- C8: range and length checks are inclusive at both bounds: `CheckIntMinMax` returns true iff
`min <= i <= max`, and it records no error (leaves the validator as it was) iff
`min <= i <= max`; likewise `CheckStringLengthMinMax` with `len(s)` in place of `i`. -/
theorem CheckMinMax_inclusive (v : Validator) (token : Token) (i min max : Int) (s : String) :
    ((v.CheckIntMinMax token i min max).1 = true ↔ min ≤ i ∧ i ≤ max)
    ∧ ((v.CheckIntMinMax token i min max).2.Errors = v.Errors ↔ min ≤ i ∧ i ≤ max)
    ∧ ((v.CheckIntMinMax token i min max).2 = v ↔ min ≤ i ∧ i ≤ max)
    ∧ ((v.CheckStringLengthMinMax token s min max).1 = true ↔ min ≤ len s ∧ len s ≤ max)
    ∧ ((v.CheckStringLengthMinMax token s min max).2.Errors = v.Errors
        ↔ min ≤ len s ∧ len s ≤ max)
    ∧ ((v.CheckStringLengthMinMax token s min max).2 = v ↔ min ≤ len s ∧ len s ≤ max) := by
  have hne : ∀ (w : Validator) (e : ValidationError),
      ¬ ({ w with Errors := w.Errors ++ [e] } : Validator) = w := by
    intro w e h
    have := congrArg (fun x => x.Errors.length) h
    simp at this
  refine ⟨?_, ?_, ?_, ?_, ?_, ?_⟩
  · by_cases h1 : min ≤ i <;> by_cases h2 : i ≤ max <;>
      simp [Validator.CheckIntMinMax, Validator.CheckIntMin, Validator.CheckIntMax,
        Validator.Check, h1, h2]
  · by_cases h1 : min ≤ i <;> by_cases h2 : i ≤ max <;>
      simp [Validator.CheckIntMinMax, Validator.CheckIntMin, Validator.CheckIntMax,
        Validator.Check, Validator.AddError, h1, h2]
  · by_cases h1 : min ≤ i <;> by_cases h2 : i ≤ max <;>
      simp [Validator.CheckIntMinMax, Validator.CheckIntMin, Validator.CheckIntMax,
        Validator.Check, Validator.AddError, h1, h2, hne]
  · by_cases h1 : min ≤ len s <;> by_cases h2 : len s ≤ max <;>
      simp [Validator.CheckStringLengthMinMax, Validator.CheckStringLengthMin,
        Validator.CheckStringLengthMax, Validator.Check, h1, h2]
  · by_cases h1 : min ≤ len s <;> by_cases h2 : len s ≤ max <;>
      simp [Validator.CheckStringLengthMinMax, Validator.CheckStringLengthMin,
        Validator.CheckStringLengthMax, Validator.Check, Validator.AddError, h1, h2]
  · by_cases h1 : min ≤ len s <;> by_cases h2 : len s ≤ max <;>
      simp [Validator.CheckStringLengthMinMax, Validator.CheckStringLengthMin,
        Validator.CheckStringLengthMax, Validator.Check, Validator.AddError, h1, h2, hne]

/-- C9: every check primitive, from every validator state and for every argument (every
compiled regular expression, and whatever `url.Parse` answers), leaves the cursor unchanged and
either returns true with the error list unchanged, or returns false with exactly one error
appended after the earlier ones. -/
theorem primitives_record_at_most_one (Parse : String → Option url.URL) (v : Validator)
    (token : Token) (i min max : Int) (s : String) (re : regexp.Regexp) (code format : String)
    (args : List fmt.Arg) :
    recordsAtMostOne v (v.CheckIntMin token i min)
    ∧ recordsAtMostOne v (v.CheckIntMax token i max)
    ∧ recordsAtMostOne v (v.CheckIntMinMax token i min max)
    ∧ recordsAtMostOne v (v.CheckStringLengthMin token s min)
    ∧ recordsAtMostOne v (v.CheckStringLengthMax token s max)
    ∧ recordsAtMostOne v (v.CheckStringLengthMinMax token s min max)
    ∧ recordsAtMostOne v (v.CheckStringNotEmpty token s)
    ∧ recordsAtMostOne v (v.CheckStringMatch token s re)
    ∧ recordsAtMostOne v (v.CheckStringMatch2 token s re code format args)
    ∧ recordsAtMostOne v (v.CheckStringURI Parse token s) := by
  refine ⟨Check_recordsAtMostOne _ _ _ _ _ _, Check_recordsAtMostOne _ _ _ _ _ _, ?_,
    Check_recordsAtMostOne _ _ _ _ _ _, Check_recordsAtMostOne _ _ _ _ _ _, ?_,
    Check_recordsAtMostOne _ _ _ _ _ _, CheckStringMatch2_recordsAtMostOne _ _ _ _ _ _ _,
    CheckStringMatch2_recordsAtMostOne _ _ _ _ _ _ _, ?_⟩
  · simp only [Validator.CheckIntMinMax, Validator.CheckIntMin, Validator.CheckIntMax]
    by_cases h : (v.Check token (decide (i ≥ min)) "integerTooSmall"
        "integer must be greater or equal to %d" [.int min]).1 = true
    · simp only [h, Bool.not_true, Bool.false_eq_true, if_false, Check_true _ _ _ _ _ _ h]
      exact Check_recordsAtMostOne _ _ _ _ _ _
    · have h2 := Check_false _ _ _ _ _ _ h
      simp only [Bool.not_eq_true] at h
      simpa [h] using h2
  · simp only [Validator.CheckStringLengthMinMax, Validator.CheckStringLengthMin,
      Validator.CheckStringLengthMax]
    by_cases h : (v.Check token (decide (len s ≥ min)) "stringTooShort"
        "string length must be greater or equal to %d" [.int min]).1 = true
    · simp only [h, Bool.not_true, Bool.false_eq_true, if_false, Check_true _ _ _ _ _ _ h]
      exact Check_recordsAtMostOne _ _ _ _ _ _
    · have h2 := Check_false _ _ _ _ _ _ h
      simp only [Bool.not_eq_true] at h
      simpa [h] using h2
  · unfold Validator.CheckStringURI
    cases hp : Parse s with
    | none => simp [recordsAtMostOne, Validator.AddError]
    | some uri =>
      by_cases hs : uri.Scheme = "" <;> simp [recordsAtMostOne, Validator.AddError, hs]

/-- C10: `Validate` of a value implementing `Validatable` runs its `ValidateJSON` from the fresh
validator (root cursor, no error); when that run returns leaving the validator `v1`, `Validate`
returns no error if and only if the error list of `v1` is empty, and otherwise exactly that list,
in the order it was accumulated. For no value at all does `Validate` return an empty list as a
present error. -/
theorem Validate_returns_accumulated (shape : Shape) (validateJSON : Validator → Res Unit)
    (v1 : Validator) (h : validateJSON NewValidator = .ok () v1) :
    NewValidator = { Pointer := [], Errors := [] }
    ∧ Validate (.typed shape (some validateJSON))
        = .ok (if v1.Errors = [] then none else some v1.Errors)
    ∧ (Validate (.typed shape (some validateJSON)) = .ok none ↔ v1.Errors = [])
    ∧ (∀ value : Value, Validate value ≠ .ok (some [])) := by
  have hv : Validate (.typed shape (some validateJSON))
      = .ok (if v1.Errors = [] then none else some v1.Errors) := by
    cases he : v1.Errors with
    | nil => simp [Validate, Value.asValidatable, h, he]
    | cons e es => simp [Validate, Value.asValidatable, h, he, Validator.Error]
  refine ⟨rfl, hv, ?_, ?_⟩
  · rw [hv]
    cases he : v1.Errors <;> simp
  · intro value hcontra
    unfold Validate at hcontra
    cases hm : value.asValidatable with
    | none => simp [hm, NewValidator] at hcontra
    | some f =>
      simp only [hm] at hcontra
      cases hf : f NewValidator with
      | panic p w => simp [hf] at hcontra
      | ok u w =>
        simp only [hf] at hcontra
        cases hw : w.Errors with
        | nil => simp [hw] at hcontra
        | cons e es => simp [hw, Validator.Error] at hcontra

/-- Witness of C10: the fixture document with the two-byte string "ab", whose validation leaves
one `stringTooShort` error. -/
theorem Validate_returns_accumulated_witness :
    NewValidator = { Pointer := [], Errors := [] }
    ∧ Validate (.typed (.pointerToStruct false)
          (some (TestFoo.ValidateJSON { String := "ab", Bar := none, Bars := [] })))
        = .ok (if ([tooShortAt [.key "String"]] : ValidationErrors) = [] then none
               else some [tooShortAt [.key "String"]])
    ∧ (Validate (.typed (.pointerToStruct false)
          (some (TestFoo.ValidateJSON { String := "ab", Bar := none, Bars := [] })))
        = .ok none ↔ ([tooShortAt [.key "String"]] : ValidationErrors) = [])
    ∧ (∀ value : Value, Validate value ≠ .ok (some [])) :=
  Validate_returns_accumulated (.pointerToStruct false)
    (TestFoo.ValidateJSON { String := "ab", Bar := none, Bars := [] })
    { Pointer := [], Errors := [tooShortAt [.key "String"]] } rfl

/-! ## Rendering and decoding -/

theorem Sprintf_path_message (type path message : String) :
    fmt.Sprintf "%v: %s" [.stringer type path, .str message] = path ++ ": " ++ message := by
  apply String.ext
  simp [fmt.Sprintf, fmt.sprintfLoop, fmt.renderVerb, fmt.extra, fmt.Arg.render,
    String.singleton]

theorem Sprintf_cannot_decode (value type text : String) :
    fmt.Sprintf "cannot decode %v into value of type %v" [.str value, .stringer type text]
      = "cannot decode " ++ value ++ " into value of type " ++ text := by
  apply String.ext
  simp [fmt.Sprintf, fmt.sprintfLoop, fmt.renderVerb, fmt.extra, fmt.Arg.render,
    String.singleton]

theorem ValidationError_Error_eq (e : ValidationError) : e.Error = errorLine e := by
  cases hp : e.Pointer with
  | nil => simp [ValidationError.Error, errorLine, hp]
  | cons t rest => simp [ValidationError.Error, errorLine, hp, Sprintf_path_message]

theorem writeErrors_eq (errs : ValidationErrors) (buf : String) :
    ValidationErrors.writeErrors buf errs
      = buf ++ concatAll (errs.map (fun e => "\n  " ++ errorLine e)) := by
  induction errs generalizing buf with
  | nil =>
    apply String.ext
    simp [ValidationErrors.writeErrors, concatAll]
  | cons e rest ih =>
    simp only [ValidationErrors.writeErrors, ih, List.map_cons, concatAll,
      ValidationError_Error_eq, String.append_assoc]

/-- C11: for every error list, `ValidationErrors.Error()` is "invalid data:" followed, for each
error in list order, by a newline, two spaces and that error's line (`<path>: <message>`, or the
bare message at the root path); there are exactly as many such pieces as errors, and each error's
own rendering is its line. -/
theorem ValidationErrors_Error_rendering (errs : ValidationErrors) :
    ValidationErrors.Error errs = renderingOf errs
    ∧ (errs.map (fun e => "\n  " ++ errorLine e)).length = errs.length
    ∧ (∀ e : ValidationError, e.Error = errorLine e) := by
  refine ⟨?_, by simp, ValidationError_Error_eq⟩
  simp only [ValidationErrors.Error, renderingOf, writeErrors_eq]
  apply String.ext
  simp

theorem splitLoop_no_sep (sep : Char) (cs acc : List Char) (hacc : sep ∉ acc) :
    ∀ part ∈ splitLoop sep cs acc, sep ∉ part.data := by
  induction cs generalizing acc with
  | nil => simp [splitLoop, hacc]
  | cons c rest ih =>
    by_cases hc : c = sep
    · intro part hpart
      simp only [splitLoop, hc, if_true, List.mem_cons] at hpart
      rcases hpart with h | h
      · subst h; simpa using hacc
      · exact ih [] (by simp) part h
    · intro part hpart
      simp only [splitLoop, hc, if_false] at hpart
      exact ih (c :: acc) (by simp [hacc, Ne.symm hc]) part hpart

theorem intercalate_go_data (sep acc : String) (parts : List String) :
    (String.intercalate.go acc sep parts).data
      = acc.data ++ (parts.map (fun p => sep.data ++ p.data)).flatten := by
  induction parts generalizing acc with
  | nil => simp [String.intercalate.go]
  | cons p rest ih => simp [String.intercalate.go, ih]

theorem splitLoop_ne_nil (sep : Char) (cs acc : List Char) : splitLoop sep cs acc ≠ [] := by
  induction cs generalizing acc with
  | nil => simp [splitLoop]
  | cons c rest ih =>
    by_cases hc : c = sep
    · simp [splitLoop, hc]
    · simp only [splitLoop, hc, if_false]; exact ih _

theorem splitLoop_join (sep : Char) (cs acc : List Char) :
    (String.intercalate (String.singleton sep) (splitLoop sep cs acc)).data
      = acc.reverse ++ cs := by
  induction cs generalizing acc with
  | nil => simp [splitLoop, String.intercalate, String.intercalate.go]
  | cons c rest ih =>
    by_cases hc : c = sep
    · have h := ih []
      cases hs : splitLoop sep rest [] with
      | nil => exact absurd hs (splitLoop_ne_nil _ _ _)
      | cons p ps =>
        rw [hs] at h
        simp only [String.intercalate, intercalate_go_data] at h
        simp only [splitLoop, hc, if_true, hs, String.intercalate, intercalate_go_data]
        simp [String.singleton]
        simpa using h
    · simp only [splitLoop, hc, if_false]
      rw [ih]
      simp
/-- C12: `ConvertUnmarshallingError` maps a `json.UnmarshalTypeError` with value V, type T and
field F to the list of exactly one error with code `invalidValueType`, message
"cannot decode V into value of type T" and path the tokens of F split on the dot, the root path
when F is empty ("String" gives /String, "Bars.Integers" gives /Bars/Integers); the parts of
the split hold no dot and, joined by dots, give F back; every other error is returned
unmodified. -/
theorem ConvertUnmarshallingError_spec (V T F : String) :
    ConvertUnmarshallingError (some (.unmarshalTypeError { Value := V, Type_ := T, Field := F }))
        = some (.validationErrors
            [{ Pointer := if F = "" then [] else (Split F '.').map Token.key,
               Code := "invalidValueType",
               Message := "cannot decode " ++ V ++ " into value of type " ++ T }])
    ∧ (∀ part ∈ Split F '.', '.' ∉ part.data)
    ∧ ".".intercalate (Split F '.') = F
    ∧ (Split "String" '.').map Token.key = [.key "String"]
    ∧ Pointer.String ((Split "String" '.').map Token.key) = "/String"
    ∧ (Split "Bars.Integers" '.').map Token.key = [.key "Bars", .key "Integers"]
    ∧ Pointer.String ((Split "Bars.Integers" '.').map Token.key) = "/Bars/Integers"
    ∧ (∀ errs, ConvertUnmarshallingError (some (.validationErrors errs))
          = some (.validationErrors errs))
    ∧ (∀ description, ConvertUnmarshallingError (some (.other description))
          = some (.other description))
    ∧ ConvertUnmarshallingError none = none := by
  refine ⟨?_, splitLoop_no_sep '.' F.data [] (by simp), ?_, by decide, by decide, by decide,
    by decide, fun _ => rfl, fun _ => rfl, rfl⟩
  · by_cases hF : F = ""
    · simp [ConvertUnmarshallingError, hF, Sprintf_cannot_decode]
    · simp [ConvertUnmarshallingError, hF, Sprintf_cannot_decode, NewPointer]
  · apply String.ext
    have hj := splitLoop_join '.' F.data []
    simpa [Split] using hj

/-- C13: decoding fails fast. When `Decode` reports an error, `UnmarshalDecoder` returns
`ConvertUnmarshallingError` of that error, whatever the destination and its `ValidateJSON` are
(validation is not run); when `Decode` reports none, it returns exactly what `Validate` of the
decoded destination returns. `Unmarshal` and `UnmarshalReader` are `UnmarshalDecoder` on the
decoder made for their input. -/
theorem UnmarshalDecoder_fails_fast {Reader : Type} (d : Decoder) (dest : Value)
    (NewReader : List UInt8 → Reader) (NewDecoder : Reader → Decoder) (data : List UInt8)
    (r : Reader) :
    UnmarshalDecoder d dest
        = (match (d.Decode dest).1 with
           | some err => .ok (ConvertUnmarshallingError (some err))
           | none => asError (Validate (d.Decode dest).2))
    ∧ Unmarshal NewReader NewDecoder data dest
        = UnmarshalDecoder (NewDecoder (NewReader data)) dest
    ∧ UnmarshalReader NewDecoder r dest = UnmarshalDecoder (NewDecoder r) dest
    ∧ (∀ (err : GoError) (dest1 dest2 : Value),
        UnmarshalDecoder { Decode := fun _ => (some err, dest1) } dest2
          = .ok (ConvertUnmarshallingError (some err))) := by
  refine ⟨?_, rfl, rfl, fun _ _ _ => rfl⟩
  unfold UnmarshalDecoder
  rcases hd : d.Decode dest with ⟨err, dest1⟩
  cases err with
  | some e => simp
  | none =>
    rcases hv : Validate dest1 with p | r
    · simp [asError, hv]
    · cases r <;> simp [asError, hv]

/-! ## Cursor discipline and the object protocol -/

/-- C14: `Push(t)` followed by `Pop()` gives back the validator as it was (cursor and error
list); an error recorded by `AddError(u, ...)` between them has path cursor, `t`, `u`, and the
following `Pop()` restores the cursor; and for a block `fn` that, run with the cursor at `t`
under the starting cursor, returns normally leaving the cursor as it found it, `WithChild(t, fn)`
returns normally with the cursor back at the starting one and the errors of `fn`. -/
theorem Push_Pop_stack_discipline (v v1 : Validator) (t u : Token) (code format : String)
    (args : List fmt.Arg) (fn : Validator → Res Unit)
    (h : fn (v.Push t) = .ok () v1) (hp : v1.Pointer = (v.Push t).Pointer) :
    (v.Push t).Pop = .ok () v
    ∧ ((v.Push t).AddError u code format args).Pop
        = .ok () { Pointer := v.Pointer,
                   Errors := v.Errors ++ [{ Pointer := v.Pointer ++ [t] ++ [u], Code := code,
                                            Message := fmt.Sprintf format args }] }
    ∧ (v.Push t).Pointer = v.Pointer ++ [t]
    ∧ v.WithChild t fn = .ok () { Pointer := v.Pointer, Errors := v1.Errors } := by
  refine ⟨Pop_Push v t, ?_, rfl, ?_⟩
  · rw [Pop_of_Pointer _ v.Pointer t (by simp [Validator.AddError, Validator.Push, Pointer.Child])]
    simp [Validator.AddError, Validator.Push, Pointer.Child]
  · simp only [Validator.WithChild, h]
    rw [Pop_of_Pointer v1 v.Pointer t (by rw [hp]; rfl)]

/-- Witness of C14: the block of the fixture `TestBar` over the single integer 15, under the
token `Integers` from the root. -/
theorem Push_Pop_stack_discipline_witness :
    (NewValidator.Push (.key "Integers")).Pop = .ok () NewValidator
    ∧ ((NewValidator.Push (.key "Integers")).AddError (.index 0) "integerTooLarge"
          "integer must be lower or equal to %d" [.int 10]).Pop
        = .ok () { Pointer := NewValidator.Pointer,
                   Errors := NewValidator.Errors
                     ++ [{ Pointer := NewValidator.Pointer ++ [.key "Integers"] ++ [.index 0],
                           Code := "integerTooLarge",
                           Message := fmt.Sprintf "integer must be lower or equal to %d"
                             [.int 10] }] }
    ∧ (NewValidator.Push (.key "Integers")).Pointer = NewValidator.Pointer ++ [.key "Integers"]
    ∧ NewValidator.WithChild (.key "Integers")
          (fun w => .ok () (TestBar.rangeIntegers 0 [15] w))
        = .ok () { Pointer := NewValidator.Pointer,
                   Errors := [tooLargeAt [.key "Integers", .index 0]] } :=
  Push_Pop_stack_discipline NewValidator
    { Pointer := [.key "Integers"], Errors := [tooLargeAt [.key "Integers", .index 0]] }
    (.key "Integers") (.index 0) "integerTooLarge" "integer must be lower or equal to %d"
    [.int 10] (fun w => .ok () (TestBar.rangeIntegers 0 [15] w)) rfl rfl

/-- C15: the validation capability is a soft requirement: on a present value (non-nil pointer to
a struct) that does not implement `Validatable`, `CheckObject` and `CheckOptionalObject` return
true and leave the validator unchanged; `Validate` of a value that does not implement
`Validatable` (of whatever shape, or the untyped nil) returns no error. -/
theorem not_Validatable_is_success (v : Validator) (token : Token) (shape : Shape) :
    v.CheckObject token (.typed (.pointerToStruct false) none) = .ok true v
    ∧ v.CheckOptionalObject token (.typed (.pointerToStruct false) none) = .ok true v
    ∧ Validate (.typed shape none) = .ok none
    ∧ Validate .nil = .ok none := by
  refine ⟨?_, ?_, ?_, ?_⟩
  · simp [Validator.CheckObject, checkObject, Validator.doCheckObject, Value.asValidatable]
  · simp [Validator.CheckOptionalObject, checkObject, Validator.doCheckObject,
      Value.asValidatable]
  · simp [Validate, Value.asValidatable, NewValidator]
  · simp [Validate, Value.asValidatable, NewValidator]

/-- C16, as the code has it: the presence test is a nil test only. Every non-nil pointer to a
struct, whatever its fields and its method, is reported present by `checkObject`, so that
`CheckObject` and `CheckOptionalObject` both go on to `doCheckObject` (no `missingValue`, no
skipping); only the untyped nil and a nil pointer to a struct are reported absent. -/
theorem checkObject_present_iff_not_nil (v : Validator) (token : Token)
    (method : Option (Validator → Res Unit)) :
    checkObject (.typed (.pointerToStruct false) method) = .ok true
    ∧ v.CheckObject token (.typed (.pointerToStruct false) method)
        = v.doCheckObject token (.typed (.pointerToStruct false) method)
    ∧ v.CheckOptionalObject token (.typed (.pointerToStruct false) method)
        = v.doCheckObject token (.typed (.pointerToStruct false) method)
    ∧ checkObject (.typed (.pointerToStruct true) method) = .ok false
    ∧ checkObject .nil = .ok false
    ∧ (∀ value : Value, checkObject value = .ok false
        ↔ (value = .nil ∨ ∃ m, value = .typed (.pointerToStruct true) m)) := by
  refine ⟨rfl, ?_, ?_, rfl, rfl, ?_⟩
  · simp [Validator.CheckObject, checkObject]
  · simp [Validator.CheckOptionalObject, checkObject]
  · intro value
    cases value with
    | nil => simp [checkObject]
    | typed shape m =>
      cases shape with
      | nonPointer => simp [checkObject]
      | pointerToOther => simp [checkObject]
      | pointerToStruct isNil => cases isNil <;> simp [checkObject]

/-- C16 fails as stated: `&TestFoo{}` and `&TestBar{}` are non-nil pointers to structs whose
fields all equal their zero values. `checkObject` reports them present; `CheckObject` on
`&TestFoo{}` records no `missingValue` but the `stringTooShort` of the nested validation, which
`CheckOptionalObject` does not skip either; `CheckObject` on `&TestBar{}` returns true and
records nothing. -/
theorem checkObject_zero_struct_counterexample :
    checkObject (TestFoo.ref { String := "", Bar := none, Bars := [] }) = .ok true
    ∧ checkObject (TestBar.ref (some { Integers := [] })) = .ok true
    ∧ (NewValidator.CheckObject (.key "Foo")
          (TestFoo.ref { String := "", Bar := none, Bars := [] })).validator.Errors.map
            ValidationError.locCode
        = [([.key "Foo", .key "String"], "stringTooShort")]
    ∧ (NewValidator.CheckOptionalObject (.key "Foo")
          (TestFoo.ref { String := "", Bar := none, Bars := [] })).validator.Errors.map
            ValidationError.locCode
        = [([.key "Foo", .key "String"], "stringTooShort")]
    ∧ NewValidator.CheckObject (.key "Bar") (TestBar.ref (some { Integers := [] }))
        = .ok true NewValidator := by
  refine ⟨rfl, rfl, by rfl, by rfl, by rfl⟩

/-- C17: the range helpers short-circuit. `CheckIntMinMax` with `i < min` returns false and
appends exactly one error, `integerTooSmall`, whether or not `i > max` also holds; with
`min <= i` and `i > max` it returns false and appends exactly one error, `integerTooLarge`;
otherwise it returns true and appends nothing. `CheckStringLengthMinMax` does the same on
`len(s)` with `stringTooShort` and `stringTooLong`. -/
theorem CheckMinMax_short_circuits (v : Validator) (token : Token) (i min max : Int)
    (s : String) :
    v.CheckIntMinMax token i min max
        = (if i < min then
            (false,
              { Pointer := v.Pointer,
                Errors := v.Errors ++
                  [{ Pointer := v.Pointer ++ [token],
                     Code := "integerTooSmall",
                     Message := fmt.Sprintf "integer must be greater or equal to %d" [.int min] }] })
           else if i > max then
            (false,
              { Pointer := v.Pointer,
                Errors := v.Errors ++
                  [{ Pointer := v.Pointer ++ [token],
                     Code := "integerTooLarge",
                     Message := fmt.Sprintf "integer must be lower or equal to %d" [.int max] }] })
           else (true, v))
    ∧ v.CheckStringLengthMinMax token s min max
        = (if len s < min then
            (false,
              { Pointer := v.Pointer,
                Errors := v.Errors ++
                  [{ Pointer := v.Pointer ++ [token],
                     Code := "stringTooShort",
                     Message := fmt.Sprintf "string length must be greater or equal to %d" [.int min] }] })
           else if len s > max then
            (false,
              { Pointer := v.Pointer,
                Errors := v.Errors ++
                  [{ Pointer := v.Pointer ++ [token],
                     Code := "stringTooLong",
                     Message := fmt.Sprintf "string length must be lower or equal to %d" [.int max] }] })
           else (true, v)) := by
  refine ⟨?_, ?_⟩
  · by_cases h1 : i < min
    · have h1b : ¬ min ≤ i := by omega
      simp [Validator.CheckIntMinMax, Validator.CheckIntMin, Validator.Check,
        Validator.AddError, Pointer.Child, h1, h1b]
    · have h1b : min ≤ i := by omega
      by_cases h2 : i > max
      · have h2b : ¬ i ≤ max := by omega
        simp [Validator.CheckIntMinMax, Validator.CheckIntMin, Validator.CheckIntMax,
          Validator.Check, Validator.AddError, Pointer.Child, h1, h1b, h2, h2b]
      · have h2b : i ≤ max := by omega
        simp [Validator.CheckIntMinMax, Validator.CheckIntMin, Validator.CheckIntMax,
          Validator.Check, h1, h1b, h2, h2b]
  · by_cases h1 : len s < min
    · have h1b : ¬ min ≤ len s := by omega
      simp [Validator.CheckStringLengthMinMax, Validator.CheckStringLengthMin, Validator.Check,
        Validator.AddError, Pointer.Child, h1, h1b]
    · have h1b : min ≤ len s := by omega
      by_cases h2 : len s > max
      · have h2b : ¬ len s ≤ max := by omega
        simp [Validator.CheckStringLengthMinMax, Validator.CheckStringLengthMin,
          Validator.CheckStringLengthMax, Validator.Check, Validator.AddError, Pointer.Child,
          h1, h1b, h2, h2b]
      · have h2b : len s ≤ max := by omega
        simp [Validator.CheckStringLengthMinMax, Validator.CheckStringLengthMin,
          Validator.CheckStringLengthMax, Validator.Check, h1, h1b, h2, h2b]

/-- C18, as the code has it: on a non-nil value that is not a pointer, or that is a pointer to
something other than a struct, `CheckObject` and `CheckOptionalObject` panic and leave the
validator as it was (no error appended). They return normally on the untyped nil, on a nil
pointer to a struct, on a pointer to a struct that does not implement `Validatable`, and on a
pointer to a struct whose `ValidateJSON` itself returns normally leaving the cursor where it
found it; and whenever they return normally the value is the untyped nil or a pointer to a
struct. -/
theorem malformed_reference_panics (v v1 : Validator) (token : Token)
    (validateJSON : Validator → Res Unit)
    (h : validateJSON (v.Push token) = .ok () v1) (hp : v1.Pointer = (v.Push token).Pointer) :
    (∀ method, v.CheckObject token (.typed .nonPointer method) = .panic .notAPointer v)
    ∧ (∀ method, v.CheckOptionalObject token (.typed .nonPointer method)
        = .panic .notAPointer v)
    ∧ (∀ method, v.CheckObject token (.typed .pointerToOther method)
        = .panic .notAPointerToStruct v)
    ∧ (∀ method, v.CheckOptionalObject token (.typed .pointerToOther method)
        = .panic .notAPointerToStruct v)
    ∧ (v.CheckObject token .nil).ret? = some false
    ∧ (v.CheckOptionalObject token .nil).ret? = some true
    ∧ (∀ method, (v.CheckObject token (.typed (.pointerToStruct true) method)).ret?
        = some false)
    ∧ (∀ method, (v.CheckOptionalObject token (.typed (.pointerToStruct true) method)).ret?
        = some true)
    ∧ (v.CheckObject token (.typed (.pointerToStruct false) none)).ret? = some true
    ∧ (v.CheckOptionalObject token (.typed (.pointerToStruct false) none)).ret? = some true
    ∧ (v.CheckObject token (.typed (.pointerToStruct false) (some validateJSON))).ret?
        = some (v1.Errors.length == v.Errors.length)
    ∧ (v.CheckOptionalObject token (.typed (.pointerToStruct false) (some validateJSON))).ret?
        = some (v1.Errors.length == v.Errors.length)
    ∧ (∀ value : Value, (v.CheckObject token value).ret? = none
        ∨ value = .nil ∨ ∃ isNil method, value = .typed (.pointerToStruct isNil) method)
    ∧ (∀ value : Value, (v.CheckOptionalObject token value).ret? = none
        ∨ value = .nil ∨ ∃ isNil method, value = .typed (.pointerToStruct isNil) method) := by
  have hpop := Pop_of_Pointer v1 v.Pointer token (by rw [hp]; rfl)
  refine ⟨fun _ => rfl, fun _ => rfl, fun _ => rfl, fun _ => rfl, rfl, rfl, fun _ => rfl,
    fun _ => rfl, rfl, rfl, ?_, ?_, ?_, ?_⟩
  · simp [Validator.CheckObject, checkObject, Validator.doCheckObject, Value.asValidatable, h,
      hpop, Res.ret?]
  · simp [Validator.CheckOptionalObject, checkObject, Validator.doCheckObject,
      Value.asValidatable, h, hpop, Res.ret?]
  · intro value
    cases value with
    | nil => simp
    | typed shape m =>
      cases shape with
      | nonPointer => left; rfl
      | pointerToOther => left; rfl
      | pointerToStruct isNil => right; right; exact ⟨isNil, m, rfl⟩
  · intro value
    cases value with
    | nil => simp
    | typed shape m =>
      cases shape with
      | nonPointer => left; rfl
      | pointerToOther => left; rfl
      | pointerToStruct isNil => right; right; exact ⟨isNil, m, rfl⟩

/-- Witness of C18 as amended: the fixture `TestBar` with the single integer 15, checked under
the token `Bar` from the root. -/
theorem malformed_reference_panics_witness :
    (NewValidator.CheckObject (.key "Bar")
        (.typed (.pointerToStruct false)
          (some (TestBar.ValidateJSON (some { Integers := [15] }))))).ret?
      = some (([tooLargeAt [.key "Bar", .key "Integers", .index 0]] : ValidationErrors).length
                == NewValidator.Errors.length)
    ∧ (∀ method, NewValidator.CheckObject (.key "Bar") (.typed .nonPointer method)
        = .panic .notAPointer NewValidator) :=
  have hw := malformed_reference_panics NewValidator
    { Pointer := [.key "Bar"], Errors := [tooLargeAt [.key "Bar", .key "Integers", .index 0]] }
    (.key "Bar") (TestBar.ValidateJSON (some { Integers := [15] })) rfl rfl
  ⟨hw.2.2.2.2.2.2.2.2.2.2.1, hw.1⟩

/-- C18 fails as stated: a non-nil pointer to a struct whose own `ValidateJSON` hands a
non-pointer to `CheckObject` is well formed, yet `CheckObject` and `CheckOptionalObject` on it
do not complete normally: the nested panic goes through them. -/
theorem pointer_to_struct_completes_counterexample :
    checkObject (.typed (.pointerToStruct false) (some passesNonPointer)) = .ok true
    ∧ NewValidator.CheckObject (.key "Obj")
          (.typed (.pointerToStruct false) (some passesNonPointer))
        = .panic .notAPointer { Pointer := [.key "Obj"], Errors := [] }
    ∧ NewValidator.CheckOptionalObject (.key "Obj")
          (.typed (.pointerToStruct false) (some passesNonPointer))
        = .panic .notAPointer { Pointer := [.key "Obj"], Errors := [] } := by
  refine ⟨rfl, by rfl, by rfl⟩

/-- C19: string length checks count UTF-8 bytes, not characters: `CheckStringLengthMin` passes
iff the number of bytes of `s` is at least `n`, `CheckStringLengthMax` passes iff it is at most
`n`. The string "éé" has 2 characters and 4 bytes: with bound 3 the minimum check passes on it
although it has fewer than 3 characters, and the maximum check fails on it although it has at
most 3 characters. -/
theorem string_length_counts_bytes (v : Validator) (token : Token) (s : String) (n : Int) :
    ((v.CheckStringLengthMin token s n).1 = true ↔ (s.utf8ByteSize : Int) ≥ n)
    ∧ ((v.CheckStringLengthMax token s n).1 = true ↔ (s.utf8ByteSize : Int) ≤ n)
    ∧ "éé".length = 2 ∧ "éé".utf8ByteSize = 4
    ∧ (v.CheckStringLengthMin token "éé" 3).1 = true
    ∧ (v.CheckStringLengthMax token "éé" 3).1 = false := by
  have hb : "éé".utf8ByteSize = 4 := by decide
  refine ⟨?_, ?_, by decide, hb, ?_, ?_⟩
  · by_cases h : (s.utf8ByteSize : Int) ≥ n <;>
      simp [Validator.CheckStringLengthMin, Validator.Check, len, h]
  · by_cases h : (s.utf8ByteSize : Int) ≤ n <;>
      simp [Validator.CheckStringLengthMax, Validator.Check, len, h]
  · simp [Validator.CheckStringLengthMin, Validator.Check, len, hb]
  · simp [Validator.CheckStringLengthMax, Validator.Check, len, hb]

end jsonvalidator
